import Mathlib

set_option autoImplicit false

/-!
Verification of the artifact-uploader repository: a shallow embedding of the
server-side upload-session service (`src/app/api/src/services/s3.service.ts`)
and the client-side chunk planner / upload controller
(`src/app/ui/src/utils/fileChunking.ts`, `src/app/ui/src/services/uploadService.ts`),
with theorems settling the specification's claims about them.

External storage (S3) responses are modelled by an explicit environment of
response functions; the storage commands the service issues are recorded as an
event list so that theorems can speak about which adapter calls were made.
-/

namespace ArtifactUploader

/-! ## Server-side data model (`src/app/api/src/types/upload.ts`) -/

/-- One uploaded part: `{ partNumber, etag }`. -/
structure UploadedPart where
  partNumber : Nat
  etag : String
  deriving Repr, DecidableEq

/-- `UploadSession.status`: `'pending' | 'uploading' | 'completed' | 'failed' | 'cancelled'`. -/
inductive SessionStatus
  | pending
  | uploading
  | completed
  | failed
  | cancelled
  deriving Repr, DecidableEq

/-- Server-side `UploadSession` record. -/
structure UploadSession where
  uploadId : String
  fileName : String
  fileSize : Nat
  fileType : String
  chunkSize : Nat
  totalChunks : Nat
  s3Key : String
  s3UploadId : String
  uploadedParts : List UploadedPart
  status : SessionStatus
  createdAt : Nat
  expiresAt : Nat
  deriving Repr, DecidableEq

/-- The in-memory session store `Map<string, UploadSession>`, embedded as an
association list; the operations below mirror `Map.get`, `Map.set`, `Map.delete`. -/
abbrev SessionStore := List (String × UploadSession)

/-- `uploadSessions.get(uploadId)`. -/
def storeFind : SessionStore → String → Option UploadSession
  | [], _ => none
  | (k, s) :: rest, uploadId =>
      if k = uploadId then some s else storeFind rest uploadId

/-- `uploadSessions.set(uploadId, session)`: replace the existing entry, or append. -/
def storeSet : SessionStore → String → UploadSession → SessionStore
  | [], uploadId, s => [(uploadId, s)]
  | (k, t) :: rest, uploadId, s =>
      if k = uploadId then (k, s) :: rest else (k, t) :: storeSet rest uploadId s

/-- `uploadSessions.delete(uploadId)`. -/
def storeErase : SessionStore → String → SessionStore
  | [], _ => []
  | (k, s) :: rest, uploadId =>
      if k = uploadId then storeErase rest uploadId
      else (k, s) :: storeErase rest uploadId

/-! ## Storage adapter (`S3Service`) -/

/-- Responses of the external storage backend, one function per adapter call.
The service consults these where the code `await`s the corresponding
`S3Service` method; `Except.error` models the method throwing. -/
structure StorageEnv where
  uploadPartResult : String → String → Nat → Except String String
  completeResult : String → String → List UploadedPart → Except String String
  abortResult : String → String → Except String Unit

/-- A storage command issued to the backend, recorded as an event. -/
inductive StorageCall
  | uploadPart (key s3UploadId : String) (partNumber : Nat)
  | completeMultipart (key s3UploadId : String) (parts : List UploadedPart)
  | abortMultipart (key s3UploadId : String)
  deriving Repr, DecidableEq

/-- Bucket/region configuration used by `S3Service.getS3Url`. -/
structure S3Config where
  bucketName : String
  region : String
  deriving Repr, DecidableEq

/-- `S3Service.getS3Url(key)`. -/
def getS3Url (cfg : S3Config) (key : String) : String :=
  "https://" ++ cfg.bucketName ++ ".s3." ++ cfg.region ++ ".amazonaws.com/" ++ key

/-- Errors thrown by the `UploadService` operations (`throw new Error(...)` sites). -/
inductive UploadError
  | sessionNotFound
  | sessionAlreadyCompleted
  | sessionCancelled
  | sessionExpired
  | invalidChunkIndex (given : Int) (totalChunks : Nat)
  | incompleteUpload (expected received : Nat)
  | cannotCancelCompleted
  | adapterError (msg : String)
  deriving Repr, DecidableEq

/-- Outcome of one `UploadService` operation: its return value or thrown error,
the session store afterwards, and the storage commands issued along the way. -/
structure StepResult (α : Type) where
  result : Except UploadError α
  store : SessionStore
  calls : List StorageCall
  deriving Repr

/-! ## `UploadService.uploadChunk` -/

/-- `UploadService.uploadChunk(uploadId, chunkIndex, chunkData)`, with the
clock `Date.now()` passed explicitly as `now`.  Checks run in source order:
missing session, completed, cancelled, expired (which flips the status to
`failed`), chunk-index range; then the idempotent replay of an already
uploaded part, and finally delegation to `S3Service.uploadPart`. -/
def uploadChunk (env : StorageEnv) (store : SessionStore) (uploadId : String)
    (chunkIndex : Int) (now : Nat) : StepResult (String × Nat) :=
  match storeFind store uploadId with
  | none => ⟨.error .sessionNotFound, store, []⟩
  | some session =>
    if session.status = .completed then
      ⟨.error .sessionAlreadyCompleted, store, []⟩
    else if session.status = .cancelled then
      ⟨.error .sessionCancelled, store, []⟩
    else if session.expiresAt < now then
      ⟨.error .sessionExpired, storeSet store uploadId { session with status := .failed }, []⟩
    else if chunkIndex < 0 ∨ (session.totalChunks : Int) ≤ chunkIndex then
      ⟨.error (.invalidChunkIndex chunkIndex session.totalChunks), store, []⟩
    else
      let partNumber := chunkIndex.toNat + 1
      match session.uploadedParts.find? (fun p => p.partNumber == partNumber) with
      | some existing => ⟨.ok (existing.etag, partNumber), store, []⟩
      | none =>
        let call := StorageCall.uploadPart session.s3Key session.s3UploadId partNumber
        match env.uploadPartResult session.s3Key session.s3UploadId partNumber with
        | .error e => ⟨.error (.adapterError e), store, [call]⟩
        | .ok etag =>
            let session' := { session with
              uploadedParts := session.uploadedParts ++ [⟨partNumber, etag⟩],
              status := SessionStatus.uploading }
            ⟨.ok (etag, partNumber), storeSet store uploadId session', [call]⟩

/-! ## `UploadService.completeUpload` -/

/-- `Array.from(new Map(parts.map(p => [p.partNumber, p])).values())`:
deduplicate by part number, keeping each number's position of first
occurrence and its last value. -/
def dedupParts (parts : List UploadedPart) : List UploadedPart :=
  parts.foldl (fun acc p =>
    if acc.any (fun q => q.partNumber == p.partNumber) then
      acc.map (fun q => if q.partNumber == p.partNumber then p else q)
    else acc ++ [p]) []

/-- `parts.sort((a, b) => a.partNumber - b.partNumber)` inside
`S3Service.completeMultipartUpload`: a stable sort by part number (JS
`Array.prototype.sort` is stable), embedded as insertion sort. -/
def sortParts (parts : List UploadedPart) : List UploadedPart :=
  parts.insertionSort (fun a b => a.partNumber ≤ b.partNumber)

/-- `UploadService.completeUpload(uploadId)`.  Returns `{s3Key, s3Url, fileSize}`
as a triple.  An already-completed session short-circuits with a URL recomputed
by `getS3Url`; otherwise the parts are deduplicated, counted against
`totalChunks`, and on success `S3Service.completeMultipartUpload` is invoked
with the parts sorted by part number (the in-place `sort` also updates the
session's own list) and the session becomes `completed`.  No expiry check
appears in the source. -/
def completeUpload (cfg : S3Config) (env : StorageEnv) (store : SessionStore)
    (uploadId : String) : StepResult (String × String × Nat) :=
  match storeFind store uploadId with
  | none => ⟨.error .sessionNotFound, store, []⟩
  | some session =>
    if session.status = .completed then
      ⟨.ok (session.s3Key, getS3Url cfg session.s3Key, session.fileSize), store, []⟩
    else
      let uniqueParts := dedupParts session.uploadedParts
      if uniqueParts.length ≠ session.totalChunks then
        ⟨.error (.incompleteUpload session.totalChunks uniqueParts.length),
          storeSet store uploadId { session with uploadedParts := uniqueParts }, []⟩
      else
        let sorted := sortParts uniqueParts
        let call := StorageCall.completeMultipart session.s3Key session.s3UploadId sorted
        match env.completeResult session.s3Key session.s3UploadId sorted with
        | .error e =>
            ⟨.error (.adapterError e),
              storeSet store uploadId { session with uploadedParts := sorted }, [call]⟩
        | .ok location =>
            ⟨.ok (session.s3Key, location, session.fileSize),
              storeSet store uploadId
                { session with uploadedParts := sorted, status := SessionStatus.completed },
              [call]⟩

/-! ## `UploadService.getUploadStatus`, `cancelUpload`, `cleanupExpiredSessions` -/

/-- `UploadService.getUploadStatus(uploadId)`. -/
def getUploadStatus (store : SessionStore) (uploadId : String) : Option UploadSession :=
  storeFind store uploadId

/-- `UploadService.cancelUpload(uploadId)`: reject unknown or completed
sessions, abort the storage-side upload (a thrown adapter error propagates and
leaves the session in place), mark the session `cancelled` and delete it. -/
def cancelUpload (env : StorageEnv) (store : SessionStore) (uploadId : String) :
    StepResult Unit :=
  match storeFind store uploadId with
  | none => ⟨.error .sessionNotFound, store, []⟩
  | some session =>
    if session.status = .completed then
      ⟨.error .cannotCancelCompleted, store, []⟩
    else
      let call := StorageCall.abortMultipart session.s3Key session.s3UploadId
      match env.abortResult session.s3Key session.s3UploadId with
      | .error e => ⟨.error (.adapterError e), store, [call]⟩
      | .ok _ =>
          let store1 := storeSet store uploadId { session with status := SessionStatus.cancelled }
          ⟨.ok (), storeErase store1 uploadId, [call]⟩

/-- The `forEach` body of `cleanupExpiredSessions`: for each collected id,
re-fetch the session, record the (best-effort, error-swallowing) abort call,
and delete the entry. -/
def sweepGo : List String → SessionStore × List StorageCall → SessionStore × List StorageCall
  | [], acc => acc
  | uploadId :: rest, (st, calls) =>
      match storeFind st uploadId with
      | none => sweepGo rest (st, calls)
      | some s =>
          sweepGo rest
            (storeErase st uploadId,
             calls ++ [StorageCall.abortMultipart s.s3Key s.s3UploadId])

/-- `UploadService.cleanupExpiredSessions()` at clock value `now`: collect every
session with `now > expiresAt && status !== 'completed'`, then abort and remove
each one.  The adapter's abort result is ignored (`try/catch` with logging), so
the environment is not consulted. -/
def cleanupExpiredSessions (store : SessionStore) (now : Nat) :
    SessionStore × List StorageCall :=
  let expired := (store.filter (fun e =>
    decide (e.2.expiresAt < now) && decide (e.2.status ≠ SessionStatus.completed))).map Prod.fst
  sweepGo expired (store, [])

/-! ## Client-side data model (`src/app/ui/src/types/upload.ts`) -/

/-- `FileChunk.status`: `'pending' | 'uploading' | 'success' | 'error'`. -/
inductive ChunkStatus
  | pending
  | uploading
  | success
  | error
  deriving Repr, DecidableEq

/-- Client-side `FileChunk`; the `blob` is `file.slice(startByte, endByte)` and
is fully determined by the recorded byte range, so it is not repeated here. -/
structure FileChunk where
  id : String
  fileName : String
  chunkIndex : Nat
  totalChunks : Nat
  startByte : Nat
  endByte : Nat
  retryCount : Nat
  status : ChunkStatus
  progress : Nat
  error : Option String := none
  deriving Repr, DecidableEq

/-- Client transfer status (`UploadFile.status`). -/
inductive TransferStatus
  | pending
  | uploading
  | paused
  | completed
  | failed
  deriving Repr, DecidableEq

/-! ## Chunk planner (`src/app/ui/src/utils/fileChunking.ts`) -/

/-- `createFileChunks(file, chunkSize)`, with the `File` represented by its
name and size.  `Math.ceil(file.size / chunkSize)` over naturals is
`(fileSize + chunkSize - 1) / chunkSize`. -/
def createFileChunks (fileName : String) (fileSize chunkSize : Nat) : List FileChunk :=
  let totalChunks := (fileSize + chunkSize - 1) / chunkSize
  (List.range totalChunks).map (fun i =>
    let startByte := i * chunkSize
    let endByte := min (startByte + chunkSize) fileSize
    { id := fileName ++ "-chunk-" ++ toString i
      fileName := fileName
      chunkIndex := i
      totalChunks := totalChunks
      startByte := startByte
      endByte := endByte
      retryCount := 0
      status := ChunkStatus.pending
      progress := 0 })

/-! ## Upload controller (`src/app/ui/src/services/uploadService.ts`) -/

/-- The per-chunk body of `syncWithBackend`: a chunk whose index the server
reports as uploaded becomes `success`; otherwise a locally-`success` chunk is
reset to `pending`; all other chunks are untouched. -/
def syncChunk (uploaded : List Nat) (chunk : FileChunk) : FileChunk :=
  if chunk.chunkIndex ∈ uploaded then
    { chunk with status := ChunkStatus.success, progress := 100,
                 error := none, retryCount := 0 }
  else if chunk.status = ChunkStatus.success then
    { chunk with status := ChunkStatus.pending, progress := 0 }
  else chunk

/-- `ChunkUploadManager.syncWithBackend`, applied to the chunk list with the
server-reported 0-based uploaded chunk indices. -/
def syncWithBackend (uploaded : List Nat) (chunks : List FileChunk) : List FileChunk :=
  chunks.map (syncChunk uploaded)

/-- Outcome of `uploadWithRetry` for one chunk: how many attempts ran, the
backoff waits performed between attempts (in order), and whether some attempt
succeeded. -/
structure RetryOutcome where
  attempts : Nat
  delays : List Nat
  succeeded : Bool
  deriving Repr, DecidableEq

/-- The `for (let attempt = 0; attempt <= maxRetries; ...)` loop of
`uploadWithRetry`, with the network outcome of each attempt given by the
oracle `outcome`.  `remaining` is `maxRetries - attempt`, so `remaining = 0`
means this is the last permitted attempt; after a failure with attempts
remaining the worker sleeps `retryDelay * 2 ^ attempt` milliseconds. -/
def retryLoop (outcome : Nat → Bool) (retryDelay : Nat) :
    Nat → Nat → RetryOutcome
  | attempt, 0 =>
      if outcome attempt then ⟨attempt + 1, [], true⟩ else ⟨attempt + 1, [], false⟩
  | attempt, remaining + 1 =>
      if outcome attempt then ⟨attempt + 1, [], true⟩
      else
        let rest := retryLoop outcome retryDelay (attempt + 1) remaining
        ⟨rest.attempts, retryDelay * 2 ^ attempt :: rest.delays, rest.succeeded⟩

/-- `uploadWithRetry(chunk, config, ...)`: run the retry loop from attempt 0;
a successful attempt leaves the chunk `success`, exhaustion leaves it `error`
(and the thrown failure is caught per-chunk by `processQueue`). -/
def uploadWithRetry (outcome : Nat → Bool) (maxRetries retryDelay : Nat) :
    RetryOutcome × ChunkStatus :=
  let r := retryLoop outcome retryDelay 0 maxRetries
  (r, if r.succeeded then ChunkStatus.success else ChunkStatus.error)

/-- `ChunkUploadManager.processQueue`, linearised: each queued chunk is run
through `uploadWithRetry` with its own outcome oracle (`outcomes i` for the
`i`-th queued chunk, counting from `start`); a chunk's exhausted retries are
swallowed by the worker loop, so later chunks are still processed. -/
def processQueue (outcomes : Nat → Nat → Bool) (maxRetries retryDelay : Nat) :
    Nat → List FileChunk → List FileChunk
  | _, [] => []
  | start, chunk :: rest =>
      (if (uploadWithRetry (outcomes start) maxRetries retryDelay).2 = ChunkStatus.success then
        { chunk with status := ChunkStatus.success, progress := 100,
                     retryCount := 0, error := none }
      else { chunk with status := ChunkStatus.error }) ::
      processQueue outcomes maxRetries retryDelay (start + 1) rest

/-- The post-join failure branch of `ChunkUploadManager.uploadFile`: if any
chunk ended in `error`, the transfer becomes `failed` with the failed-chunk
count in the message; otherwise the completed branch runs. -/
def uploadFileFinish (chunks : List FileChunk) : TransferStatus × Option String :=
  let failed := chunks.filter (fun c => c.status == ChunkStatus.error)
  if failed.length = 0 then (TransferStatus.completed, none)
  else (TransferStatus.failed, some (toString failed.length ++ " chunk(s) failed"))

/-! ## Client upload configuration (`ChunkUploadManager` constructor) -/

/-- Effective `UploadConfig` held by a `ChunkUploadManager`. -/
structure UploadConfig where
  chunkSize : Int
  maxParallelChunks : Int
  maxRetries : Int
  retryDelay : Int
  endpoint : String
  deriving Repr, DecidableEq

/-- The caller-supplied constructor argument: every config field optional. -/
structure UploadConfigOverrides where
  chunkSize : Option Int := none
  maxParallelChunks : Option Int := none
  maxRetries : Option Int := none
  retryDelay : Option Int := none
  endpoint : Option String := none

/-- JavaScript `x || fallback` for a possibly-absent number (`0` is falsy). -/
def orDefaultInt (given : Option Int) (fallback : Int) : Int :=
  match given with
  | none => fallback
  | some v => if v = 0 then fallback else v

/-- JavaScript `x || fallback` for a possibly-absent string (`''` is falsy). -/
def orDefaultStr (given : Option String) (fallback : String) : String :=
  match given with
  | none => fallback
  | some v => if v = "" then fallback else v

/-- `MIN_CHUNK = 5 * 1024 * 1024` (5MB, the S3 minimum part size). -/
def MIN_CHUNK : Int := 5 * 1024 * 1024

/-- The `ChunkUploadManager` constructor:
`chunkSize: Math.max(config.chunkSize || MIN_CHUNK, MIN_CHUNK)` and the other
defaulted fields. -/
def mkUploadConfig (given : UploadConfigOverrides) : UploadConfig :=
  { chunkSize := max (orDefaultInt given.chunkSize MIN_CHUNK) MIN_CHUNK
    maxParallelChunks := orDefaultInt given.maxParallelChunks 3
    maxRetries := orDefaultInt given.maxRetries 3
    retryDelay := orDefaultInt given.retryDelay 1000
    endpoint := orDefaultStr given.endpoint "/upload/chunk" }

/-- `ChunkUploadManager.getConfig()`: returns a copy of the held config. -/
def getConfig (c : UploadConfig) : UploadConfig := c

/-- The server-side chunk-size gate in `UploadService.initiateUpload`:
`effectiveChunkSize = chunkSize || config.CHUNK_SIZE`, rejected when below
5MB. -/
def initiateRejectsChunkSize (requested : Option Int) (configChunkSize : Int) : Bool :=
  decide (orDefaultInt requested configChunkSize < MIN_CHUNK)

/-! ## Claim C4: chunk planning -/

/-- The byte ranges `[i*c, min (i*c + c) n)` for `i < t` cover `min n (t*c)`
bytes in total. -/
lemma sum_chunk_ranges (c : Nat) :
    ∀ t n : Nat,
      ((List.range t).map (fun i => min (i * c + c) n - i * c)).sum = min n (t * c) := by
  intro t
  induction t with
  | zero => intro n; simp
  | succ t ih =>
    intro n
    rw [List.range_succ, List.map_append, List.sum_append, ih n, Nat.succ_mul]
    simp only [List.map_cons, List.map_nil, List.sum_cons, List.sum_nil]
    generalize t * c = X
    omega

/-- A size never exceeds its chunk count times the chunk size. -/
lemma le_ceilDiv_mul (n c : Nat) (hc : 0 < c) : n ≤ (n + c - 1) / c * c := by
  have h1 : c * ((n + c - 1) / c) + (n + c - 1) % c = n + c - 1 :=
    Nat.div_add_mod (n + c - 1) c
  have h2 : (n + c - 1) % c < c := Nat.mod_lt _ hc
  rw [Nat.mul_comm]
  generalize hX : c * ((n + c - 1) / c) = X at h1
  omega

/-- C4: for every `fileSize ≥ 0` and `chunkSize > 0`, `createFileChunks` is
deterministic, produces exactly `ceil(fileSize / chunkSize)` chunks, the
`i`-th chunk has `startByte = i * chunkSize` and
`endByte = min (startByte + chunkSize) fileSize`, and the chunk lengths sum to
`fileSize`. -/
theorem createFileChunks_plan (fileName : String) (fileSize chunkSize : Nat)
    (hpos : 0 < chunkSize) :
    createFileChunks fileName fileSize chunkSize =
      createFileChunks fileName fileSize chunkSize ∧
    (createFileChunks fileName fileSize chunkSize).length =
      (fileSize + chunkSize - 1) / chunkSize ∧
    (∀ i (h : i < (createFileChunks fileName fileSize chunkSize).length),
      ((createFileChunks fileName fileSize chunkSize).get ⟨i, h⟩).chunkIndex = i ∧
      ((createFileChunks fileName fileSize chunkSize).get ⟨i, h⟩).startByte = i * chunkSize ∧
      ((createFileChunks fileName fileSize chunkSize).get ⟨i, h⟩).endByte =
        min (i * chunkSize + chunkSize) fileSize) ∧
    ((createFileChunks fileName fileSize chunkSize).map
      (fun c => c.endByte - c.startByte)).sum = fileSize := by
  refine ⟨rfl, ?_, ?_, ?_⟩
  · simp [createFileChunks]
  · intro i h
    refine ⟨?_, ?_, ?_⟩ <;>
      simp [createFileChunks, List.get_eq_getElem]
  · have hcover : fileSize ≤ (fileSize + chunkSize - 1) / chunkSize * chunkSize :=
      le_ceilDiv_mul fileSize chunkSize hpos
    simp only [createFileChunks, List.map_map]
    have := sum_chunk_ranges chunkSize ((fileSize + chunkSize - 1) / chunkSize) fileSize
    simpa [Function.comp, Nat.min_eq_left hcover] using this

/-- Witness for C4 at `fileSize = 12`, `chunkSize = 5`: three chunks
`[0,5) [5,10) [10,12)` summing to 12. -/
theorem createFileChunks_plan_witness :
    0 < 5 ∧
    (createFileChunks "f" 12 5).length = 3 ∧
    ((createFileChunks "f" 12 5).map (fun c => (c.startByte, c.endByte))) =
      [(0, 5), (5, 10), (10, 12)] ∧
    ((createFileChunks "f" 12 5).map (fun c => c.endByte - c.startByte)).sum = 12 := by
  have h := createFileChunks_plan "f" 12 5 (by decide)
  exact ⟨by decide, h.2.1, by decide, h.2.2.2⟩

/-! ## Claim C3: resumption reconciliation -/

/-- A transfer of four chunks whose local statuses are
`[success, success, pending, pending]` (spec's resumption example). -/
def reconcileExampleChunks : List FileChunk :=
  (createFileChunks "f" 20 5).map (fun c =>
    if c.chunkIndex < 2 then { c with status := ChunkStatus.success, progress := 100 } else c)

/-- C3: reconciliation marks every chunk whose index the server reports as
uploaded `success`, resets every locally-`success` chunk the server does not
report to `pending`, and leaves every other chunk unchanged; in the spec's
example, local `[success, success, pending, pending]` against a server report
of only part 1 (index 0) yields `[success, pending, pending, pending]`. -/
theorem syncWithBackend_reconciles (uploaded : List Nat) (chunks : List FileChunk) :
    (syncWithBackend uploaded chunks).length = chunks.length ∧
    (∀ i (h : i < chunks.length) (h' : i < (syncWithBackend uploaded chunks).length),
      ((chunks.get ⟨i, h⟩).chunkIndex ∈ uploaded →
        ((syncWithBackend uploaded chunks).get ⟨i, h'⟩).status = ChunkStatus.success) ∧
      ((chunks.get ⟨i, h⟩).chunkIndex ∉ uploaded →
        (chunks.get ⟨i, h⟩).status = ChunkStatus.success →
        (syncWithBackend uploaded chunks).get ⟨i, h'⟩ =
          { chunks.get ⟨i, h⟩ with status := ChunkStatus.pending, progress := 0 }) ∧
      ((chunks.get ⟨i, h⟩).chunkIndex ∉ uploaded →
        (chunks.get ⟨i, h⟩).status ≠ ChunkStatus.success →
        (syncWithBackend uploaded chunks).get ⟨i, h'⟩ = chunks.get ⟨i, h⟩)) ∧
    (syncWithBackend [0] reconcileExampleChunks).map (fun c => c.status) =
      [ChunkStatus.success, ChunkStatus.pending, ChunkStatus.pending, ChunkStatus.pending] := by
  refine ⟨by simp [syncWithBackend], ?_, by decide⟩
  intro i h h'
  refine ⟨?_, ?_, ?_⟩
  · intro hmem
    simp only [List.get_eq_getElem] at hmem
    simp [syncWithBackend, syncChunk, hmem]
  · intro hmem hsucc
    simp only [List.get_eq_getElem] at hmem hsucc
    simp [syncWithBackend, syncChunk, hmem, hsucc]
  · intro hmem hsucc
    simp only [List.get_eq_getElem] at hmem hsucc
    simp [syncWithBackend, syncChunk, hmem, hsucc]

/-- Witness for C3: reconciling a fresh single-chunk transfer against a server
report containing its index marks it `success`. -/
theorem syncWithBackend_reconciles_witness :
    ((createFileChunks "g" 5 5).get? 0).map (fun c => c.chunkIndex) = some 0 ∧
    ((syncWithBackend [0] (createFileChunks "g" 5 5)).get? 0).map (fun c => c.status) =
      some ChunkStatus.success := by
  have h := (syncWithBackend_reconciles [0] (createFileChunks "g" 5 5)).2.1 0 (by decide) (by decide)
  refine ⟨by decide, ?_⟩
  have h0 := h.1 (by decide)
  simp only [List.get?_eq_getElem?]
  rw [List.getElem?_eq_getElem (by decide)]
  simpa using h0

/-! ## Claim C10: client chunk-size floor -/

/-- C10: whatever options the `ChunkUploadManager` constructor receives
(absent, zero, negative, or undersized `chunkSize`), the effective config
reported by `getConfig` has `chunkSize ≥ 5MB`, and the server's
`initiateUpload` chunk-size gate never rejects that value. -/
theorem manager_chunk_size_floor (given : UploadConfigOverrides) (serverDefault : Int) :
    MIN_CHUNK ≤ (getConfig (mkUploadConfig given)).chunkSize ∧
    initiateRejectsChunkSize (some ((getConfig (mkUploadConfig given)).chunkSize))
      serverDefault = false := by
  have hle : MIN_CHUNK ≤ (getConfig (mkUploadConfig given)).chunkSize :=
    le_max_right _ _
  refine ⟨hle, ?_⟩
  have hpos : (0 : Int) < MIN_CHUNK := by decide
  have hne : (getConfig (mkUploadConfig given)).chunkSize ≠ 0 := by omega
  simp only [initiateRejectsChunkSize, orDefaultInt, hne, if_false, decide_eq_false_iff_not,
    not_lt]
  exact hle

/-! ## Claim C6: per-chunk retry with exponential backoff -/

/-- Shape of the retry loop from an arbitrary starting attempt: the attempt
counter grows, stays within the remaining budget, the recorded waits are
exactly `retryDelay * 2 ^ a` for the failed attempts `a` that had attempts
remaining, and if every permitted attempt fails the loop exhausts its budget
without success. -/
lemma retryLoop_spec (outcome : Nat → Bool) (retryDelay : Nat) :
    ∀ remaining attempt,
      attempt < (retryLoop outcome retryDelay attempt remaining).attempts ∧
      (retryLoop outcome retryDelay attempt remaining).attempts ≤ attempt + remaining + 1 ∧
      (retryLoop outcome retryDelay attempt remaining).delays =
        (List.range' attempt
          ((retryLoop outcome retryDelay attempt remaining).attempts - 1 - attempt)).map
          (fun a => retryDelay * 2 ^ a) ∧
      ((∀ a, a ≤ attempt + remaining → outcome a = false) →
        (retryLoop outcome retryDelay attempt remaining).succeeded = false ∧
        (retryLoop outcome retryDelay attempt remaining).attempts = attempt + remaining + 1) := by
  intro remaining
  induction remaining with
  | zero =>
    intro attempt
    by_cases h : outcome attempt = true
    · refine ⟨by simp [retryLoop, h], by simp [retryLoop, h], by simp [retryLoop, h], ?_⟩
      intro hall
      exact absurd h (by simp [hall attempt (by omega)])
    · refine ⟨by simp [retryLoop, h], by simp [retryLoop, h], by simp [retryLoop, h], ?_⟩
      intro hall
      simp [retryLoop, h]
  | succ remaining ih =>
    intro attempt
    by_cases h : outcome attempt = true
    · refine ⟨by simp [retryLoop, h], by simp [retryLoop, h], by simp [retryLoop, h], ?_⟩
      intro hall
      exact absurd h (by simp [hall attempt (by omega)])
    · obtain ⟨ih1, ih2, ih3, ih4⟩ := ih (attempt + 1)
      have hatt : (retryLoop outcome retryDelay attempt (remaining + 1)).attempts =
          (retryLoop outcome retryDelay (attempt + 1) remaining).attempts := by
        simp [retryLoop, h]
      have hdel : (retryLoop outcome retryDelay attempt (remaining + 1)).delays =
          retryDelay * 2 ^ attempt ::
            (retryLoop outcome retryDelay (attempt + 1) remaining).delays := by
        simp [retryLoop, h]
      have hsuc : (retryLoop outcome retryDelay attempt (remaining + 1)).succeeded =
          (retryLoop outcome retryDelay (attempt + 1) remaining).succeeded := by
        simp [retryLoop, h]
      refine ⟨by omega, by omega, ?_, ?_⟩
      · rw [hdel, hatt]
        have hcount : (retryLoop outcome retryDelay (attempt + 1) remaining).attempts - 1 - attempt
            = ((retryLoop outcome retryDelay (attempt + 1) remaining).attempts - 1 -
               (attempt + 1)) + 1 := by omega
        rw [hcount, List.range'_succ, List.map_cons, ← ih3]
      · intro hall
        have hres := ih4 (fun a ha => hall a (by omega))
        exact ⟨by rw [hsuc]; exact hres.1, by omega⟩

/-- Statuses produced by the worker loop: the `i`-th queued chunk ends
`success` or `error` according to its own retry outcome alone. -/
lemma processQueue_statuses (outcomes : Nat → Nat → Bool) (maxRetries retryDelay : Nat) :
    ∀ (queue : List FileChunk) (start : Nat),
      (processQueue outcomes maxRetries retryDelay start queue).map (fun c => c.status) =
        (List.range' start queue.length).map (fun j =>
          if (uploadWithRetry (outcomes j) maxRetries retryDelay).2 = ChunkStatus.success
          then ChunkStatus.success else ChunkStatus.error) := by
  intro queue
  induction queue with
  | nil => intro start; simp [processQueue]
  | cons chunk rest ih =>
    intro start
    rw [List.length_cons, List.range'_succ, List.map_cons]
    by_cases h : (uploadWithRetry (outcomes start) maxRetries retryDelay).2 = ChunkStatus.success
    · simp [processQueue, h, ih (start + 1)]
    · simp [processQueue, h, ih (start + 1)]

/-- C6: `uploadWithRetry` performs at most `maxRetries + 1` attempts, waits
`retryDelay * 2 ^ attempt` after each failed attempt that has attempts
remaining (so the waits are non-decreasing), leaves the chunk `error` when
every attempt fails; the worker loop still processes every other queued chunk,
and the controller then marks the transfer `failed` with the failed-chunk
count in the error message. -/
theorem uploadWithRetry_backoff (outcome : Nat → Bool) (maxRetries retryDelay : Nat) :
    (uploadWithRetry outcome maxRetries retryDelay).1.attempts ≤ maxRetries + 1 ∧
    (uploadWithRetry outcome maxRetries retryDelay).1.delays =
      (List.range ((uploadWithRetry outcome maxRetries retryDelay).1.attempts - 1)).map
        (fun a => retryDelay * 2 ^ a) ∧
    List.Pairwise (· ≤ ·) (uploadWithRetry outcome maxRetries retryDelay).1.delays ∧
    ((∀ a, a ≤ maxRetries → outcome a = false) →
      (uploadWithRetry outcome maxRetries retryDelay).2 = ChunkStatus.error ∧
      (uploadWithRetry outcome maxRetries retryDelay).1.attempts = maxRetries + 1) ∧
    (∀ (outcomes : Nat → Nat → Bool) (queue : List FileChunk),
      (processQueue outcomes maxRetries retryDelay 0 queue).length = queue.length ∧
      (processQueue outcomes maxRetries retryDelay 0 queue).map (fun c => c.status) =
        (List.range queue.length).map (fun j =>
          if (uploadWithRetry (outcomes j) maxRetries retryDelay).2 = ChunkStatus.success
          then ChunkStatus.success else ChunkStatus.error)) ∧
    (∀ chunks : List FileChunk,
      (chunks.filter (fun c => c.status == ChunkStatus.error)).length ≠ 0 →
      uploadFileFinish chunks =
        (TransferStatus.failed,
         some (toString (chunks.filter (fun c => c.status == ChunkStatus.error)).length ++
           " chunk(s) failed"))) := by
  obtain ⟨h1, h2, h3, h4⟩ := retryLoop_spec outcome retryDelay maxRetries 0
  have hdelays : (uploadWithRetry outcome maxRetries retryDelay).1.delays =
      (List.range ((uploadWithRetry outcome maxRetries retryDelay).1.attempts - 1)).map
        (fun a => retryDelay * 2 ^ a) := by
    simpa [uploadWithRetry, List.range_eq_range'] using h3
  refine ⟨by simpa [uploadWithRetry] using h2, hdelays, ?_, ?_, ?_, ?_⟩
  · rw [hdelays]
    refine List.Pairwise.map _ (fun a b hab => ?_) (List.pairwise_lt_range _)
    exact Nat.mul_le_mul_left _ (Nat.pow_le_pow_right (by omega) (le_of_lt hab))
  · intro hall
    have := h4 (fun a ha => hall a (by omega))
    constructor
    · simp [uploadWithRetry, this.1]
    · simpa [uploadWithRetry] using this.2
  · intro outcomes queue
    constructor
    · have := congrArg List.length (processQueue_statuses outcomes maxRetries retryDelay queue 0)
      simpa using this
    · simpa [List.range_eq_range'] using processQueue_statuses outcomes maxRetries retryDelay queue 0
  · intro chunks hne
    simp [uploadFileFinish, hne]

/-- Witness for C6: three always-failing attempts (`maxRetries = 2`,
`retryDelay = 100`) wait 100ms then 200ms and leave the chunk `error`; a queue
whose single chunk fails every attempt yields one `error` chunk and the
controller reports "1 chunk(s) failed". -/
theorem uploadWithRetry_backoff_witness :
    (uploadWithRetry (fun _ => false) 2 100).1.attempts = 3 ∧
    (uploadWithRetry (fun _ => false) 2 100).1.delays = [100, 200] ∧
    (uploadWithRetry (fun _ => false) 2 100).2 = ChunkStatus.error ∧
    uploadFileFinish
        ((createFileChunks "f" 5 5).map (fun c => { c with status := ChunkStatus.error })) =
      (TransferStatus.failed, some "1 chunk(s) failed") := by
  obtain ⟨-, -, -, h4, -, h6⟩ := uploadWithRetry_backoff (fun _ => false) 2 100
  obtain ⟨hstat, hatt⟩ := h4 (fun a _ => rfl)
  exact ⟨hatt, by decide, hstat, h6 _ (by decide)⟩

/-! ## Session-store lemmas -/

lemma storeFind_storeSet_self (store : SessionStore) (k : String) (s : UploadSession) :
    storeFind (storeSet store k s) k = some s := by
  induction store with
  | nil => simp [storeSet, storeFind]
  | cons e rest ih =>
    by_cases h : e.1 = k
    · simp [storeSet, storeFind, h]
    · simp [storeSet, storeFind, h, ih]

lemma storeFind_storeErase_self (store : SessionStore) (k : String) :
    storeFind (storeErase store k) k = none := by
  induction store with
  | nil => simp [storeErase, storeFind]
  | cons e rest ih =>
    obtain ⟨ek, es⟩ := e
    by_cases h : ek = k
    · simpa [storeErase, h] using ih
    · simpa [storeErase, storeFind, h] using ih

lemma storeFind_storeErase_ne (store : SessionStore) (k k' : String) (h : k ≠ k') :
    storeFind (storeErase store k') k = storeFind store k := by
  induction store with
  | nil => simp [storeErase, storeFind]
  | cons e rest ih =>
    obtain ⟨ek, es⟩ := e
    by_cases he : ek = k'
    · subst he
      have hk : ¬ ek = k := fun hx => h hx.symm
      simpa [storeErase, storeFind, hk] using ih
    · by_cases hk : ek = k
      · subst hk
        simp [storeErase, storeFind, h, he]
      · simpa [storeErase, storeFind, he, hk] using ih

/-- Number of recorded parts of a stored session (0 when absent). -/
def sessionPartsCount (store : SessionStore) (uploadId : String) : Nat :=
  match storeFind store uploadId with
  | some s => s.uploadedParts.length
  | none => 0

/-! ## Claim C1: accept-chunk is idempotent -/

/-- C1: after a successful `uploadChunk`, the accepted part is recorded, and
repeating the very same call returns the stored completion tag, issues no
storage `uploadPart` command, leaves the store (hence the size of the parts
list) unchanged. -/
theorem uploadChunk_idempotent (env : StorageEnv) (store : SessionStore)
    (uploadId : String) (chunkIndex : Int) (now : Nat) (etag : String) (partNumber : Nat)
    (h : (uploadChunk env store uploadId chunkIndex now).result = .ok (etag, partNumber)) :
    (uploadChunk env (uploadChunk env store uploadId chunkIndex now).store
        uploadId chunkIndex now).result = .ok (etag, partNumber) ∧
    (uploadChunk env (uploadChunk env store uploadId chunkIndex now).store
        uploadId chunkIndex now).calls = [] ∧
    (uploadChunk env (uploadChunk env store uploadId chunkIndex now).store
        uploadId chunkIndex now).store =
      (uploadChunk env store uploadId chunkIndex now).store ∧
    sessionPartsCount
        (uploadChunk env (uploadChunk env store uploadId chunkIndex now).store
          uploadId chunkIndex now).store uploadId =
      sessionPartsCount (uploadChunk env store uploadId chunkIndex now).store uploadId := by
  cases hfind : storeFind store uploadId with
  | none => simp [uploadChunk, hfind] at h
  | some session =>
    by_cases h1 : session.status = SessionStatus.completed
    · simp [uploadChunk, hfind, h1] at h
    by_cases h2 : session.status = SessionStatus.cancelled
    · simp [uploadChunk, hfind, h1, h2] at h
    by_cases h3 : session.expiresAt < now
    · simp [uploadChunk, hfind, h1, h2, h3] at h
    by_cases h4 : chunkIndex < 0 ∨ (session.totalChunks : Int) ≤ chunkIndex
    · simp [uploadChunk, hfind, h1, h2, h3, h4] at h
    cases hpart : session.uploadedParts.find?
        (fun p => p.partNumber == chunkIndex.toNat + 1) with
    | some existing =>
      have hstep : uploadChunk env store uploadId chunkIndex now =
          ⟨.ok (existing.etag, chunkIndex.toNat + 1), store, []⟩ := by
        simp [uploadChunk, hfind, h1, h2, h3, h4, hpart]
      rw [hstep] at h
      simp only at h
      obtain ⟨he, hp⟩ : existing.etag = etag ∧ chunkIndex.toNat + 1 = partNumber := by
        cases h; exact ⟨rfl, rfl⟩
      rw [hstep]
      simp only
      rw [hstep]
      constructor
      · simp [uploadChunk, hfind, h1, h2, h3, h4, hpart, he, hp]
      · simp [uploadChunk, hfind, h1, h2, h3, h4, hpart]
    | none =>
      cases henv : env.uploadPartResult session.s3Key session.s3UploadId
          (chunkIndex.toNat + 1) with
      | error e => simp [uploadChunk, hfind, h1, h2, h3, h4, hpart, henv] at h
      | ok etag0 =>
        have hstep : uploadChunk env store uploadId chunkIndex now =
            ⟨.ok (etag0, chunkIndex.toNat + 1),
             storeSet store uploadId
               { session with
                 uploadedParts :=
                   session.uploadedParts ++ [⟨chunkIndex.toNat + 1, etag0⟩],
                 status := SessionStatus.uploading },
             [StorageCall.uploadPart session.s3Key session.s3UploadId
               (chunkIndex.toNat + 1)]⟩ := by
          simp [uploadChunk, hfind, h1, h2, h3, h4, hpart, henv]
        rw [hstep] at h
        simp only at h
        obtain ⟨he, hp⟩ : etag0 = etag ∧ chunkIndex.toNat + 1 = partNumber := by
          cases h; exact ⟨rfl, rfl⟩
        subst he
        subst hp
        rw [hstep]
        simp only
        have hfind2 : storeFind
            (storeSet store uploadId
              { session with
                uploadedParts :=
                  session.uploadedParts ++ [⟨chunkIndex.toNat + 1, etag0⟩],
                status := SessionStatus.uploading }) uploadId =
            some { session with
              uploadedParts :=
                session.uploadedParts ++ [⟨chunkIndex.toNat + 1, etag0⟩],
              status := SessionStatus.uploading } :=
          storeFind_storeSet_self store uploadId _
        have hpart2 : (session.uploadedParts ++
            [(⟨chunkIndex.toNat + 1, etag0⟩ : UploadedPart)]).find?
              (fun p => p.partNumber == chunkIndex.toNat + 1) =
            some ⟨chunkIndex.toNat + 1, etag0⟩ := by
          rw [List.find?_append, hpart]
          simp
        constructor
        · simp [uploadChunk, hfind2, h1, h2, h3, h4, hpart2]
        · simp [uploadChunk, hfind2, h1, h2, h3, h4, hpart2]

/-- Witness for C1: a one-chunk session accepts part 1, and replaying the same
call returns the stored tag without a storage command or store change. -/
theorem uploadChunk_idempotent_witness :
    ((uploadChunk ⟨fun _ _ _ => .ok "tag-1", fun _ _ _ => .ok "loc", fun _ _ => .ok ()⟩
        [("u", { uploadId := "u", fileName := "f", fileSize := 5, fileType := "t",
                 chunkSize := 5, totalChunks := 1, s3Key := "k", s3UploadId := "sid",
                 uploadedParts := [], status := SessionStatus.pending,
                 createdAt := 0, expiresAt := 100 })] "u" 0 50).result =
      Except.ok ("tag-1", 1)) ∧
    (uploadChunk ⟨fun _ _ _ => .ok "tag-1", fun _ _ _ => .ok "loc", fun _ _ => .ok ()⟩
        (uploadChunk ⟨fun _ _ _ => .ok "tag-1", fun _ _ _ => .ok "loc", fun _ _ => .ok ()⟩
          [("u", { uploadId := "u", fileName := "f", fileSize := 5, fileType := "t",
                   chunkSize := 5, totalChunks := 1, s3Key := "k", s3UploadId := "sid",
                   uploadedParts := [], status := SessionStatus.pending,
                   createdAt := 0, expiresAt := 100 })] "u" 0 50).store "u" 0 50).result =
      Except.ok ("tag-1", 1) ∧
    (uploadChunk ⟨fun _ _ _ => .ok "tag-1", fun _ _ _ => .ok "loc", fun _ _ => .ok ()⟩
        (uploadChunk ⟨fun _ _ _ => .ok "tag-1", fun _ _ _ => .ok "loc", fun _ _ => .ok ()⟩
          [("u", { uploadId := "u", fileName := "f", fileSize := 5, fileType := "t",
                   chunkSize := 5, totalChunks := 1, s3Key := "k", s3UploadId := "sid",
                   uploadedParts := [], status := SessionStatus.pending,
                   createdAt := 0, expiresAt := 100 })] "u" 0 50).store "u" 0 50).calls =
      [] := by
  refine ⟨rfl, ?_⟩
  have h := uploadChunk_idempotent
    ⟨fun _ _ _ => .ok "tag-1", fun _ _ _ => .ok "loc", fun _ _ => .ok ()⟩
    [("u", { uploadId := "u", fileName := "f", fileSize := 5, fileType := "t",
             chunkSize := 5, totalChunks := 1, s3Key := "k", s3UploadId := "sid",
             uploadedParts := [], status := SessionStatus.pending,
             createdAt := 0, expiresAt := 100 })] "u" 0 50 "tag-1" 1 rfl
  exact ⟨h.1, h.2.1⟩

/-! ## Claim C5: accept-chunk error conditions -/

/-- C5: `uploadChunk` fails with `sessionNotFound` exactly when the store has
no session for the id; on a stored session the checks run in source order:
`completed` → `sessionAlreadyCompleted`, `cancelled` → `sessionCancelled`,
expiry (`now > expiresAt`) → `sessionExpired` and the stored status becomes
`failed`, a part number `chunkIndex + 1` outside `[1, totalChunks]` →
`invalidChunkIndex`; and when none of these hold the call does not fail before
delegating: it either returns a tag (possibly the stored one) or surfaces the
adapter's own error after issuing the `uploadPart` command. -/
theorem uploadChunk_error_conditions (env : StorageEnv) (store : SessionStore)
    (uploadId : String) (chunkIndex : Int) (now : Nat) :
    (storeFind store uploadId = none ↔
      (uploadChunk env store uploadId chunkIndex now).result =
        .error .sessionNotFound) ∧
    (∀ s, storeFind store uploadId = some s →
      (s.status = SessionStatus.completed →
        (uploadChunk env store uploadId chunkIndex now).result =
          .error .sessionAlreadyCompleted) ∧
      (s.status ≠ SessionStatus.completed → s.status = SessionStatus.cancelled →
        (uploadChunk env store uploadId chunkIndex now).result =
          .error .sessionCancelled) ∧
      (s.status ≠ SessionStatus.completed → s.status ≠ SessionStatus.cancelled →
        s.expiresAt < now →
        (uploadChunk env store uploadId chunkIndex now).result =
          .error .sessionExpired ∧
        storeFind (uploadChunk env store uploadId chunkIndex now).store uploadId =
          some { s with status := SessionStatus.failed }) ∧
      (s.status ≠ SessionStatus.completed → s.status ≠ SessionStatus.cancelled →
        now ≤ s.expiresAt →
        (chunkIndex + 1 < 1 ∨ (s.totalChunks : Int) < chunkIndex + 1) →
        (uploadChunk env store uploadId chunkIndex now).result =
          .error (.invalidChunkIndex chunkIndex s.totalChunks)) ∧
      (s.status ≠ SessionStatus.completed → s.status ≠ SessionStatus.cancelled →
        now ≤ s.expiresAt →
        1 ≤ chunkIndex + 1 → chunkIndex + 1 ≤ (s.totalChunks : Int) →
        (∃ tag pn,
          (uploadChunk env store uploadId chunkIndex now).result = .ok (tag, pn)) ∨
        (∃ msg,
          (uploadChunk env store uploadId chunkIndex now).result =
            .error (.adapterError msg) ∧
          (uploadChunk env store uploadId chunkIndex now).calls =
            [.uploadPart s.s3Key s.s3UploadId (chunkIndex.toNat + 1)]))) := by
  cases hfind : storeFind store uploadId with
  | none =>
    refine ⟨by simp [uploadChunk, hfind], ?_⟩
    intro s hs
    simp at hs
  | some session =>
    constructor
    · constructor
      · intro hnone
        simp at hnone
      · intro hres
        exfalso
        by_cases h1 : session.status = SessionStatus.completed
        · simp [uploadChunk, hfind, h1] at hres
        by_cases h2 : session.status = SessionStatus.cancelled
        · simp [uploadChunk, hfind, h1, h2] at hres
        by_cases h3 : session.expiresAt < now
        · simp [uploadChunk, hfind, h1, h2, h3] at hres
        by_cases h4 : chunkIndex < 0 ∨ (session.totalChunks : Int) ≤ chunkIndex
        · simp [uploadChunk, hfind, h1, h2, h3, h4] at hres
        cases hpart : session.uploadedParts.find?
            (fun p => p.partNumber == chunkIndex.toNat + 1) with
        | some ex => simp [uploadChunk, hfind, h1, h2, h3, h4, hpart] at hres
        | none =>
          cases henv : env.uploadPartResult session.s3Key session.s3UploadId
              (chunkIndex.toNat + 1) with
          | ok tg => simp [uploadChunk, hfind, h1, h2, h3, h4, hpart, henv] at hres
          | error msg => simp [uploadChunk, hfind, h1, h2, h3, h4, hpart, henv] at hres
    · intro s hs
      have hss : session = s := Option.some.inj hs
      subst hss
      refine ⟨?_, ?_, ?_, ?_, ?_⟩
      · intro hc
        simp [uploadChunk, hfind, hc]
      · intro hc hx
        simp [uploadChunk, hfind, hc, hx]
      · intro hc hx hexp
        refine ⟨by simp [uploadChunk, hfind, hc, hx, hexp], ?_⟩
        simp [uploadChunk, hfind, hc, hx, hexp, storeFind_storeSet_self]
      · intro hc hx hexp hrange
        have hexp' : ¬ session.expiresAt < now := by omega
        have hr : chunkIndex < 0 ∨ (session.totalChunks : Int) ≤ chunkIndex := by omega
        simp [uploadChunk, hfind, hc, hx, hexp', hr]
      · intro hc hx hexp h1r h2r
        have hexp' : ¬ session.expiresAt < now := by omega
        have hr : ¬ (chunkIndex < 0 ∨ (session.totalChunks : Int) ≤ chunkIndex) := by
          omega
        cases hpart : session.uploadedParts.find?
            (fun p => p.partNumber == chunkIndex.toNat + 1) with
        | some ex =>
          exact Or.inl ⟨ex.etag, chunkIndex.toNat + 1,
            by simp [uploadChunk, hfind, hc, hx, hexp', hr, hpart]⟩
        | none =>
          cases henv : env.uploadPartResult session.s3Key session.s3UploadId
              (chunkIndex.toNat + 1) with
          | ok tg =>
            exact Or.inl ⟨tg, chunkIndex.toNat + 1,
              by simp [uploadChunk, hfind, hc, hx, hexp', hr, hpart, henv]⟩
          | error msg =>
            refine Or.inr ⟨msg, ?_, ?_⟩
            · simp [uploadChunk, hfind, hc, hx, hexp', hr, hpart, henv]
            · simp [uploadChunk, hfind, hc, hx, hexp', hr, hpart, henv]

/-- Witness for C5: on the empty store every accept-chunk call reports
`sessionNotFound`. -/
theorem uploadChunk_error_conditions_witness :
    (uploadChunk ⟨fun _ _ _ => .ok "t", fun _ _ _ => .ok "l", fun _ _ => .ok ()⟩
        [] "missing" 0 0).result = .error .sessionNotFound := by
  exact (uploadChunk_error_conditions
    ⟨fun _ _ _ => .ok "t", fun _ _ _ => .ok "l", fun _ _ => .ok ()⟩
    [] "missing" 0 0).1.mp rfl

/-! ## Claim C2: completeness gate and idempotent completion -/

lemma sortParts_sorted (parts : List UploadedPart) :
    List.Pairwise (fun a b => a.partNumber ≤ b.partNumber) (sortParts parts) := by
  haveI : IsTotal UploadedPart (fun a b => a.partNumber ≤ b.partNumber) :=
    ⟨fun a b => Nat.le_total a.partNumber b.partNumber⟩
  haveI : IsTrans UploadedPart (fun a b => a.partNumber ≤ b.partNumber) :=
    ⟨fun _ _ _ hab hbc => Nat.le_trans hab hbc⟩
  exact List.sorted_insertionSort _ parts

lemma sortParts_perm (parts : List UploadedPart) :
    (sortParts parts).Perm parts :=
  List.perm_insertionSort _ parts

/-- C2 (amended): on a stored, not-yet-completed session, `completeUpload`
fails with `incompleteUpload expected received` and issues no storage command
whenever the recorded (deduplicated) part count differs from `totalChunks`;
when the counts agree it issues exactly one `completeMultipart` command whose
part list is a permutation of the recorded parts sorted by part number, and —
when the adapter answers with a location — succeeds with that location and
marks the session `completed`; every call on an already-completed session
returns, without any storage command and without touching the store, the URL
recomputed from the session's key by `getS3Url` (not the location the adapter
returned earlier). -/
theorem completeUpload_gate (cfg : S3Config) (env : StorageEnv)
    (store : SessionStore) (uploadId : String) :
    (∀ s, storeFind store uploadId = some s → s.status ≠ SessionStatus.completed →
      (dedupParts s.uploadedParts).length ≠ s.totalChunks →
      (completeUpload cfg env store uploadId).result =
        .error (.incompleteUpload s.totalChunks (dedupParts s.uploadedParts).length) ∧
      (completeUpload cfg env store uploadId).calls = []) ∧
    (∀ s, storeFind store uploadId = some s → s.status ≠ SessionStatus.completed →
      (dedupParts s.uploadedParts).length = s.totalChunks →
      ((completeUpload cfg env store uploadId).calls =
        [.completeMultipart s.s3Key s.s3UploadId (sortParts (dedupParts s.uploadedParts))] ∧
       List.Pairwise (fun a b => a.partNumber ≤ b.partNumber)
         (sortParts (dedupParts s.uploadedParts)) ∧
       (sortParts (dedupParts s.uploadedParts)).Perm (dedupParts s.uploadedParts) ∧
       (∀ location,
         env.completeResult s.s3Key s.s3UploadId
             (sortParts (dedupParts s.uploadedParts)) = .ok location →
         (completeUpload cfg env store uploadId).result =
           .ok (s.s3Key, location, s.fileSize) ∧
         storeFind (completeUpload cfg env store uploadId).store uploadId =
           some { s with uploadedParts := sortParts (dedupParts s.uploadedParts),
                         status := SessionStatus.completed }))) ∧
    (∀ s, storeFind store uploadId = some s → s.status = SessionStatus.completed →
      (completeUpload cfg env store uploadId).result =
        .ok (s.s3Key, getS3Url cfg s.s3Key, s.fileSize) ∧
      (completeUpload cfg env store uploadId).calls = [] ∧
      (completeUpload cfg env store uploadId).store = store) := by
  refine ⟨?_, ?_, ?_⟩
  · intro s hs hnc hlen
    constructor
    · simp [completeUpload, hs, hnc, hlen]
    · simp [completeUpload, hs, hnc, hlen]
  · intro s hs hnc hlen
    refine ⟨?_, sortParts_sorted _, sortParts_perm _, ?_⟩
    · cases henv : env.completeResult s.s3Key s.s3UploadId
          (sortParts (dedupParts s.uploadedParts)) with
      | error e => simp [completeUpload, hs, hnc, hlen, henv]
      | ok location => simp [completeUpload, hs, hnc, hlen, henv]
    · intro location henv
      constructor
      · simp [completeUpload, hs, hnc, hlen, henv]
      · simp [completeUpload, hs, hnc, hlen, henv, storeFind_storeSet_self]
  · intro s hs hc
    refine ⟨?_, ?_, ?_⟩ <;> simp [completeUpload, hs, hc]

/-- Session used to exhibit the location discrepancy: one part of one
recorded, ready to complete. -/
def cexSession : UploadSession :=
  { uploadId := "u", fileName := "f", fileSize := 5, fileType := "t",
    chunkSize := 5, totalChunks := 1, s3Key := "k", s3UploadId := "sid",
    uploadedParts := [⟨1, "e1"⟩], status := SessionStatus.uploading,
    createdAt := 0, expiresAt := 100 }

/-- Adapter whose `completeMultipart` answers a location different from the
`getS3Url` form. -/
def cexEnv : StorageEnv :=
  ⟨fun _ _ _ => .ok "tag", fun _ _ _ => .ok "adapter-location", fun _ _ => .ok ()⟩

def cexConfig : S3Config := ⟨"bucket", "region"⟩

/-- Counterexample for C2 as stated: the first `completeUpload` returns the
adapter's location, but the subsequent call — while issuing no storage
command — returns the `getS3Url` reconstruction, which differs from the
previously computed location. -/
theorem completeUpload_location_cex :
    (completeUpload cexConfig cexEnv [("u", cexSession)] "u").result =
      .ok ("k", "adapter-location", 5) ∧
    (completeUpload cexConfig cexEnv
        (completeUpload cexConfig cexEnv [("u", cexSession)] "u").store "u").result =
      .ok ("k", "https://bucket.s3.region.amazonaws.com/k", 5) ∧
    (completeUpload cexConfig cexEnv
        (completeUpload cexConfig cexEnv [("u", cexSession)] "u").store "u").calls = [] ∧
    ("https://bucket.s3.region.amazonaws.com/k" : String) ≠ "adapter-location" := by
  refine ⟨rfl, rfl, rfl, by decide⟩

/-- A two-chunk session holding only one part. -/
def gateSessionIncomplete : UploadSession :=
  { cexSession with uploadId := "w", totalChunks := 2 }

/-- An already-completed session. -/
def gateSessionCompleted : UploadSession :=
  { cexSession with uploadId := "c", status := SessionStatus.completed }

/-- Witness for C2's amended theorem: a two-chunk session holding one part
fails with `incompleteUpload 2 1`, and once completed a repeat call returns
the `getS3Url` URL without storage calls. -/
theorem completeUpload_gate_witness :
    (completeUpload cexConfig cexEnv [("w", gateSessionIncomplete)] "w").result =
      .error (.incompleteUpload 2 1) ∧
    (completeUpload cexConfig cexEnv [("c", gateSessionCompleted)] "c").result =
      .ok ("k", "https://bucket.s3.region.amazonaws.com/k", 5) := by
  constructor
  · exact ((completeUpload_gate cexConfig cexEnv
      [("w", gateSessionIncomplete)] "w").1 _ rfl (by decide) (by decide)).1
  · exact ((completeUpload_gate cexConfig cexEnv
      [("c", gateSessionCompleted)] "c").2.2 _ rfl (by decide)).1

/-! ## Claim C7: expiry sweep -/

lemma sweepGo_calls_mono :
    ∀ (ids : List String) (st : SessionStore) (calls : List StorageCall)
      (x : StorageCall), x ∈ calls → x ∈ (sweepGo ids (st, calls)).2 := by
  intro ids
  induction ids with
  | nil => intro st calls x hx; exact hx
  | cons id rest ih =>
    intro st calls x hx
    cases hid : storeFind st id with
    | none => simpa [sweepGo, hid] using ih st calls x hx
    | some s =>
      have : x ∈ calls ++ [StorageCall.abortMultipart s.s3Key s.s3UploadId] :=
        List.mem_append_left _ hx
      simpa [sweepGo, hid] using ih _ _ x this

lemma sweepGo_find_none :
    ∀ (ids : List String) (st : SessionStore) (calls : List StorageCall)
      (k : String), storeFind st k = none →
      storeFind (sweepGo ids (st, calls)).1 k = none := by
  intro ids
  induction ids with
  | nil => intro st calls k hk; exact hk
  | cons id rest ih =>
    intro st calls k hk
    cases hid : storeFind st id with
    | none => simpa [sweepGo, hid] using ih st calls k hk
    | some s =>
      have herase : storeFind (storeErase st id) k = none := by
        by_cases hik : k = id
        · rw [hik]; exact storeFind_storeErase_self st id
        · rw [storeFind_storeErase_ne st k id hik]; exact hk
      simpa [sweepGo, hid] using ih _ _ k herase

lemma sweepGo_not_mem :
    ∀ (ids : List String) (st : SessionStore) (calls : List StorageCall)
      (k : String), k ∉ ids →
      storeFind (sweepGo ids (st, calls)).1 k = storeFind st k := by
  intro ids
  induction ids with
  | nil => intro st calls k _; rfl
  | cons id rest ih =>
    intro st calls k hk
    have hne : k ≠ id := fun h => hk (h ▸ List.mem_cons_self id rest)
    have hrest : k ∉ rest := fun h => hk (List.mem_cons_of_mem id h)
    cases hid : storeFind st id with
    | none => simpa [sweepGo, hid] using ih st calls k hrest
    | some s =>
      have herase : storeFind (storeErase st id) k = storeFind st k :=
        storeFind_storeErase_ne st k id hne
      rw [show sweepGo (id :: rest) (st, calls) =
        sweepGo rest (storeErase st id,
          calls ++ [StorageCall.abortMultipart s.s3Key s.s3UploadId]) by
          simp [sweepGo, hid]]
      rw [ih _ _ k hrest, herase]

lemma sweepGo_mem :
    ∀ (ids : List String) (st : SessionStore) (calls : List StorageCall)
      (k : String) (s : UploadSession), k ∈ ids → storeFind st k = some s →
      storeFind (sweepGo ids (st, calls)).1 k = none ∧
      StorageCall.abortMultipart s.s3Key s.s3UploadId ∈ (sweepGo ids (st, calls)).2 := by
  intro ids
  induction ids with
  | nil => intro st calls k s hk _; cases hk
  | cons id rest ih =>
    intro st calls k s hk hs
    cases hid : storeFind st id with
    | none =>
      have hne : k ≠ id := fun h => by rw [h, hid] at hs; cases hs
      have hrest : k ∈ rest := (List.mem_cons.mp hk).resolve_left hne
      simpa [sweepGo, hid] using ih st calls k s hrest hs
    | some s' =>
      by_cases hik : k = id
      · subst hik
        have hss : s' = s := by rw [hid] at hs; exact Option.some.inj hs
        subst hss
        have hnone : storeFind (storeErase st k) k = none :=
          storeFind_storeErase_self st k
        constructor
        · simpa [sweepGo, hid] using sweepGo_find_none rest _ _ k hnone
        · have hin : StorageCall.abortMultipart s'.s3Key s'.s3UploadId ∈
              calls ++ [StorageCall.abortMultipart s'.s3Key s'.s3UploadId] :=
            List.mem_append_right _ (List.mem_singleton.mpr rfl)
          simpa [sweepGo, hid] using sweepGo_calls_mono rest _ _ _ hin
      · have hrest : k ∈ rest := (List.mem_cons.mp hk).resolve_left hik
        have herase : storeFind (storeErase st id) k = some s := by
          rw [storeFind_storeErase_ne st k id hik]; exact hs
        simpa [sweepGo, hid] using ih _ _ k s hrest herase

/-- The predicate collected by the sweep. -/
def sweepExpiredPred (now : Nat) (e : String × UploadSession) : Bool :=
  decide (e.2.expiresAt < now) && decide (e.2.status ≠ SessionStatus.completed)

lemma mem_expired_of_find (store : SessionStore) (now : Nat) (k : String)
    (s : UploadSession) (hfind : storeFind store k = some s)
    (hexp : s.expiresAt < now) (hst : s.status ≠ SessionStatus.completed) :
    k ∈ (store.filter (sweepExpiredPred now)).map Prod.fst := by
  induction store with
  | nil => cases hfind
  | cons e rest ih =>
    obtain ⟨ek, es⟩ := e
    by_cases hek : ek = k
    · subst hek
      have hes : es = s := by
        simpa [storeFind] using hfind
      subst hes
      have hp : sweepExpiredPred now (ek, es) = true := by
        simp [sweepExpiredPred, hexp, hst]
      simp [List.filter_cons, hp]
    · have hfind' : storeFind rest k = some s := by
        simpa [storeFind, hek] using hfind
      have := ih hfind'
      by_cases hp : sweepExpiredPred now (ek, es) = true
      · simp [List.filter_cons, hp, this]
      · simpa [List.filter_cons, hp] using this

lemma not_mem_expired_of_find (store : SessionStore) (now : Nat) (k : String)
    (s : UploadSession) (hnodup : (store.map Prod.fst).Nodup)
    (hfind : storeFind store k = some s)
    (hok : s.status = SessionStatus.completed ∨ now ≤ s.expiresAt) :
    k ∉ (store.filter (sweepExpiredPred now)).map Prod.fst := by
  induction store with
  | nil => simp
  | cons e rest ih =>
    obtain ⟨ek, es⟩ := e
    rw [List.map_cons] at hnodup
    have hnd := List.nodup_cons.mp hnodup
    by_cases hek : ek = k
    · subst hek
      have hes : es = s := by simpa [storeFind] using hfind
      subst hes
      have hp : sweepExpiredPred now (ek, es) = false := by
        rcases hok with hc | hfresh
        · simp [sweepExpiredPred, hc]
        · simp [sweepExpiredPred, Nat.not_lt.mpr hfresh]
      rw [List.filter_cons, hp]
      simp only [Bool.false_eq_true, if_false]
      intro hmem
      exact hnd.1 (List.map_subset Prod.fst (List.filter_sublist _).subset hmem)
    · have hfind' : storeFind rest k = some s := by
        simpa [storeFind, hek] using hfind
      have hrec := ih hnd.2 hfind'
      rw [List.filter_cons]
      by_cases hp : sweepExpiredPred now (ek, es) = true
      · rw [hp]
        simp only [if_true, List.map_cons, List.mem_cons]
        rintro (h | h)
        · exact hek h.symm
        · exact hrec h
      · rw [Bool.not_eq_true] at hp
        rw [hp]
        simpa using hrec

/-- C7: after `cleanupExpiredSessions` runs at time `now`, every stored
session past its deadline and not `completed` has been removed and the
storage-side abort for it was invoked (the adapter's answer is never
consulted, so an abort failure cannot prevent the removal); every completed
and every unexpired session is still stored unchanged. -/
theorem cleanupExpiredSessions_sweeps (store : SessionStore) (now : Nat)
    (hnodup : (store.map Prod.fst).Nodup) :
    (∀ uploadId s, storeFind store uploadId = some s →
      s.expiresAt < now → s.status ≠ SessionStatus.completed →
      storeFind (cleanupExpiredSessions store now).1 uploadId = none ∧
      StorageCall.abortMultipart s.s3Key s.s3UploadId ∈
        (cleanupExpiredSessions store now).2) ∧
    (∀ uploadId s, storeFind store uploadId = some s →
      (s.status = SessionStatus.completed ∨ now ≤ s.expiresAt) →
      storeFind (cleanupExpiredSessions store now).1 uploadId = some s) := by
  constructor
  · intro uploadId s hfind hexp hst
    have hmem : uploadId ∈ (store.filter (sweepExpiredPred now)).map Prod.fst :=
      mem_expired_of_find store now uploadId s hfind hexp hst
    exact sweepGo_mem _ store [] uploadId s hmem hfind
  · intro uploadId s hfind hok
    have hnmem : uploadId ∉ (store.filter (sweepExpiredPred now)).map Prod.fst :=
      not_mem_expired_of_find store now uploadId s hnodup hfind hok
    rw [show (cleanupExpiredSessions store now).1 =
      (sweepGo ((store.filter (sweepExpiredPred now)).map Prod.fst) (store, [])).1 by
        rfl]
    rw [sweepGo_not_mem _ store [] uploadId hnmem]
    exact hfind

/-- Expired, still-`uploading` session for the sweep witness. -/
def sweepSessionExpired : UploadSession :=
  { cexSession with uploadId := "e", expiresAt := 10 }

/-- Completed (hence protected) session for the sweep witness. -/
def sweepSessionDone : UploadSession :=
  { cexSession with uploadId := "c", expiresAt := 10, status := SessionStatus.completed }

/-- Witness for C7 at `now = 50`: the expired `uploading` session is removed
with its abort recorded, while the expired-but-completed one survives. -/
theorem cleanupExpiredSessions_sweeps_witness :
    storeFind (cleanupExpiredSessions
        [("e", sweepSessionExpired), ("c", sweepSessionDone)] 50).1 "e" = none ∧
    StorageCall.abortMultipart "k" "sid" ∈
      (cleanupExpiredSessions
        [("e", sweepSessionExpired), ("c", sweepSessionDone)] 50).2 ∧
    storeFind (cleanupExpiredSessions
        [("e", sweepSessionExpired), ("c", sweepSessionDone)] 50).1 "c" =
      some sweepSessionDone := by
  have h := cleanupExpiredSessions_sweeps
    [("e", sweepSessionExpired), ("c", sweepSessionDone)] 50 (by decide)
  have h1 := h.1 "e" sweepSessionExpired rfl (by decide) (by decide)
  have h2 := h.2 "c" sweepSessionDone rfl (Or.inl rfl)
  exact ⟨h1.1, h1.2, h2⟩

/-! ## Claim C8: cancel -/

/-- C8: `cancelUpload` reports `sessionNotFound` for an unknown id and
`cannotCancelCompleted` for a completed session; otherwise it issues the
storage abort exactly once and — when the adapter abort succeeds — returns
`ok` after marking the session `cancelled` and deleting it, so a subsequent
`getUploadStatus` reports the session missing. -/
theorem cancelUpload_spec (env : StorageEnv) (store : SessionStore)
    (uploadId : String) :
    (storeFind store uploadId = none →
      (cancelUpload env store uploadId).result = .error .sessionNotFound) ∧
    (∀ s, storeFind store uploadId = some s → s.status = SessionStatus.completed →
      (cancelUpload env store uploadId).result = .error .cannotCancelCompleted ∧
      (cancelUpload env store uploadId).calls = []) ∧
    (∀ s, storeFind store uploadId = some s → s.status ≠ SessionStatus.completed →
      (cancelUpload env store uploadId).calls =
        [.abortMultipart s.s3Key s.s3UploadId] ∧
      (env.abortResult s.s3Key s.s3UploadId = .ok () →
        (cancelUpload env store uploadId).result = .ok () ∧
        getUploadStatus (cancelUpload env store uploadId).store uploadId = none)) := by
  refine ⟨?_, ?_, ?_⟩
  · intro hnone
    simp [cancelUpload, hnone]
  · intro s hs hc
    constructor
    · simp [cancelUpload, hs, hc]
    · simp [cancelUpload, hs, hc]
  · intro s hs hc
    constructor
    · cases habort : env.abortResult s.s3Key s.s3UploadId with
      | error e => simp [cancelUpload, hs, hc, habort]
      | ok u => simp [cancelUpload, hs, hc, habort]
    · intro habort
      constructor
      · simp [cancelUpload, hs, hc, habort]
      · simp [cancelUpload, hs, hc, habort, getUploadStatus,
          storeFind_storeErase_self]

/-- Witness for C8: cancelling a one-part `uploading` session records exactly
one abort, returns `ok`, and a status query afterwards reports not-found. -/
theorem cancelUpload_spec_witness :
    (cancelUpload cexEnv [("u", cexSession)] "u").calls =
      [StorageCall.abortMultipart "k" "sid"] ∧
    (cancelUpload cexEnv [("u", cexSession)] "u").result = .ok () ∧
    getUploadStatus (cancelUpload cexEnv [("u", cexSession)] "u").store "u" = none := by
  have h := (cancelUpload_spec cexEnv [("u", cexSession)] "u").2.2
    cexSession rfl (by decide)
  have h2 := h.2 rfl
  exact ⟨h.1, h2.1, h2.2⟩

/-! ## Claim C9: no resurrection past expiry -/

/-- C9 exhibit: at `now = 200` the session `cexSession` (deadline 100) is
expired — `uploadChunk` itself says so and refuses — yet `completeUpload`,
which never consults the clock, still succeeds on it and flips its status to
`completed`. -/
theorem completeUpload_resurrects_expired :
    cexSession.expiresAt < 200 ∧
    cexSession.status ≠ SessionStatus.completed ∧
    (uploadChunk cexEnv [("u", cexSession)] "u" 0 200).result =
      .error .sessionExpired ∧
    (completeUpload cexConfig cexEnv [("u", cexSession)] "u").result =
      .ok ("k", "adapter-location", 5) ∧
    (storeFind (completeUpload cexConfig cexEnv [("u", cexSession)] "u").store
        "u").map (fun s => s.status) = some SessionStatus.completed := by
  exact ⟨by decide, by decide, rfl, rfl, rfl⟩

end ArtifactUploader
